import Mathlib

/-!
Verification development for the Beth Yw? Welsh government data parser.

The C++ sources (area.cpp, measure.cpp, areas.cpp, bethyw.cpp) are embedded
shallowly:

* `std::map<K, V>` becomes a key-sorted association list `List (K × V)`;
  `map[k] = v` becomes `minsert`, `map.at(k)` / `map.find(k)` become `alookup`.
  `std::unordered_map` (Area names) is also modelled as an association list;
  its C++ iteration order is unspecified and no claim below depends on it.
* `double` becomes `ℚ` (exact rational idealisation of the binary64 values;
  all concrete inputs in this file are exactly representable).  Arithmetic is
  written with `mkRat`-based helpers (`qadd`, …) which are kernel-computable.
* machine integers: `unsigned int` results are reduced mod 2^32, `long` is
  clamped to the `strtol` range, explicitly where overflow can matter.
* C++ exceptions become `Except`/`Option` results; dereferencing a null
  pointer (undefined behaviour) becomes a dedicated error value.
-/

/-- ASCII `tolower` of the default C locale: only letters A–Z are mapped. -/
def lowerChar (c : Char) : Char :=
  if 'A' ≤ c && c ≤ 'Z' then Char.ofNat (c.toNat + 32) else c

/-- Model of `BethYw::toLower` (bethyw.cpp): lowercase every character. -/
def toLower (s : String) : String := String.mk (s.data.map lowerChar)

/-- Modelled from the spec: `BethYw::toUpper` is declared in bethyw.h but its
definition is not part of the sources under verification; the spec (§6) says
area codes are "matched against uppercased codes", so it is the uppercase
counterpart of `toLower`. -/
def upperChar (c : Char) : Char :=
  if 'a' ≤ c && c ≤ 'z' then Char.ofNat (c.toNat - 32) else c

/-- Modelled from the spec: uppercase every character (see `upperChar`). -/
def toUpper (s : String) : String := String.mk (s.data.map upperChar)

/-- C locale `isalpha`: letters A–Z and a–z. -/
def isAlphaChar (c : Char) : Bool :=
  ('A' ≤ c && c ≤ 'Z') || ('a' ≤ c && c ≤ 'z')

/-- First-defined choice on options: keep `x` when present, else `y`. -/
def ofirst {β : Type _} (x y : Option β) : Option β :=
  match x with
  | some v => some v
  | none => y

/-- Lookup in an association list (first occurrence), the model of
`std::map::at` / `find`. -/
def alookup {α β : Type _} [DecidableEq α] : List (α × β) → α → Option β
  | [], _ => none
  | (k₀, v) :: t, k => if k₀ = k then some v else alookup t k

/-- Ordered insert-or-replace, the model of `map[k] = v` on `std::map`
(and of `map.insert(std::make_pair(k, v))` when `k` is absent).  `lt` is the
key order; with a sorted input the output stays sorted. -/
def minsert {α β : Type _} [DecidableEq α] (lt : α → α → Bool) :
    List (α × β) → α → β → List (α × β)
  | [], k, v => [(k, v)]
  | (k₀, v₀) :: t, k, v =>
    if lt k k₀ then (k, v) :: (k₀, v₀) :: t
    else if k = k₀ then (k, v) :: t
    else (k₀, v₀) :: minsert lt t k v

/-- Apply `f` to the mapped value of key `k` (model of `m.at(k) = f(old)`). -/
def updateFirst {α β : Type _} [DecidableEq α] (f : β → β) :
    List (α × β) → α → List (α × β)
  | [], _ => []
  | (k₀, v₀) :: t, k => if k₀ = k then (k₀, f v₀) :: t else (k₀, v₀) :: updateFirst f t k

/-- Value of the LAST occurrence of key `k` in the list, used to describe
repeated `map[k] = v` writes. -/
def lastVal {α β : Type _} [DecidableEq α] : List (α × β) → α → Option β
  | [], _ => none
  | (k₀, v) :: t, k => ofirst (lastVal t k) (if k₀ = k then some v else none)

/-- Lexicographic order on character lists (the order `std::string` uses,
byte-wise; identical to code-point order on the ASCII data handled here). -/
def charListLt : List Char → List Char → Bool
  | [], [] => false
  | [], _ :: _ => true
  | _ :: _, [] => false
  | a :: as, b :: bs => if a < b then true else if a = b then charListLt as bs else false

/-- Model of `operator<` on `std::string`. -/
def strLt (a b : String) : Bool := charListLt a.data b.data

/-- Kernel-computable rational addition (`mkRat` normalises). -/
def qadd (a b : ℚ) : ℚ := mkRat (a.num * b.den + b.num * a.den) (a.den * b.den)

/-- Kernel-computable rational subtraction. -/
def qsub (a b : ℚ) : ℚ := mkRat (a.num * b.den - b.num * a.den) (a.den * b.den)

/-- Kernel-computable rational multiplication. -/
def qmul (a b : ℚ) : ℚ := mkRat (a.num * b.num) (a.den * b.den)

/-- Kernel-computable rational division (division by zero yields 0; no claim
below divides by zero). -/
def qdiv (a b : ℚ) : ℚ :=
  mkRat (a.num * b.den * (if b.num < 0 then -1 else 1)) (a.den * b.num.natAbs)

/-- Kernel-computable rational negation. -/
def qneg (a : ℚ) : ℚ := mkRat (-a.num) a.den

/-- Kernel-computable rational absolute value. -/
def qabs (a : ℚ) : ℚ := mkRat (a.num.natAbs : Int) a.den

/-- The Measure class (measure.h): codename, human label and the year-keyed
value map `std::map<int, double> values`. -/
structure Measure where
  code : String
  label : String
  values : List (Nat × ℚ)
deriving DecidableEq

/-- The `Measure(codename, label)` constructor (measure.cpp): the codename is
lowercased on construction, the label stored verbatim. -/
def Measure.make (codename label : String) : Measure :=
  ⟨toLower codename, label, []⟩

/-- `Measure::getCodename`. -/
def Measure.getCodename (m : Measure) : String := m.code

/-- `Measure::getLabel`. -/
def Measure.getLabel (m : Measure) : String := m.label

/-- `Measure::setLabel`. -/
def Measure.setLabel (m : Measure) (newLabel : String) : Measure :=
  { m with label := newLabel }

/-- `Measure::getValue`: `values.at(year)`, rethrown with the measure's own
message when the year is absent. -/
def Measure.getValue (m : Measure) (year : Nat) : Except String ℚ :=
  match alookup m.values year with
  | some v => .ok v
  | none => .error ("No value found for year " ++ toString year)

/-- `Measure::setValue`: `values[year] = value`. -/
def Measure.setValue (m : Measure) (year : Nat) (value : ℚ) : Measure :=
  { m with values := minsert Nat.blt m.values year value }

/-- `Measure::size`. -/
def Measure.size (m : Measure) : Nat := m.values.length

/-- `Measure::getDifference`: last stored value minus first stored value
(the map iterates years in ascending order), 0 when empty. -/
def Measure.getDifference (m : Measure) : ℚ :=
  match m.values.head?, m.values.getLast? with
  | some first, some last => qsub last.2 first.2
  | _, _ => 0

/-- `Measure::getAverage`: sum of all values divided by their count,
0 when empty. -/
def Measure.getAverage (m : Measure) : ℚ :=
  match m.values with
  | [] => 0
  | _ => qdiv (m.values.foldl (fun s p => qadd s p.2) 0) (mkRat (m.values.length : Int) 1)

/-- `Measure::getDifferenceAsPercentage`: `getDifference / firstValue * 100`,
0 when empty. -/
def Measure.getDifferenceAsPercentage (m : Measure) : ℚ :=
  match m.values.head? with
  | none => 0
  | some first => qmul (qdiv m.getDifference first.2) (mkRat 100 1)

/-- The `Measure::operator=` used for merging (measure.cpp lines 374–380):
every year/value pair of `other` is upserted into `m`; codename and label are
not touched. -/
def Measure.assign (m other : Measure) : Measure :=
  { m with values := other.values.foldl (fun acc p => minsert Nat.blt acc p.1 p.2) m.values }

/-- The Area class (area.h): authority code, language-keyed names
(`std::unordered_map`) and codename-keyed measures (`std::map`). -/
structure Area where
  authorityCode : String
  names : List (String × String)
  measures : List (String × Measure)
deriving DecidableEq

/-- The `Area(localAuthorityCode)` constructor. -/
def Area.make (localAuthorityCode : String) : Area :=
  ⟨localAuthorityCode, [], []⟩

/-- `Area::getLocalAuthorityCode`. -/
def Area.getLocalAuthorityCode (a : Area) : String := a.authorityCode

/-- `Area::getName`: `names.at(langCode)`, with no case conversion applied to
the query (`std::out_of_range` on a miss is modelled as `none`). -/
def Area.getName (a : Area) (langCode : String) : Option String :=
  alookup a.names langCode

/-- `Area::hasName`. -/
def Area.hasName (a : Area) (langCode : String) : Bool :=
  (alookup a.names langCode).isSome

/-- `Area::setName` (area.cpp lines 98–118): rejects a language code that is
not exactly three alphabetic characters, else stores the name under the
lowercased code. -/
def Area.setName (a : Area) (lang name : String) : Except String Area :=
  if lang.data.length ≠ 3 then
    .error "Area::setName: Language code must be three alphabetical letters only"
  else if !(lang.data.all isAlphaChar) then
    .error "Area::setName: Language code must be three alphabetical letters only"
  else .ok { a with names := minsert strLt a.names (toLower lang) name }

/-- `Area::getMeasure` (area.cpp lines 136–147).  The source makes a
lowercased copy of the key but then calls `measures.at(key)` with the
ORIGINAL key, so the lowercased copy is dead and the lookup is
case-sensitive; the embedding reproduces that. -/
def Area.getMeasure (a : Area) (key : String) : Except String Measure :=
  match alookup a.measures key with
  | some m => .ok m
  | none => .error ("No measure found matching " ++ key)

/-- The insert-or-merge pattern `if (m.find(k) == m.end()) m.insert({k, inc});
else m.find(k)->second = inc;` used by `Area::setMeasure`, the measures loop
of `Area::operator=`, and `Areas::setArea`; `f old inc` is the copy-assignment
operator of the mapped type. -/
def mergeInto {β : Type _} (f : β → β → β) (ms : List (String × β)) (k : String) (inc : β) :
    List (String × β) :=
  if (alookup ms k).isSome then updateFirst (fun old => f old inc) ms k
  else minsert strLt ms k inc

/-- The insert-or-merge step shared by `Area::setMeasure` and the measures
loop of `Area::operator=`: when the key exists the stored measure absorbs the
incoming one through `Measure::operator=`, otherwise the incoming measure is
inserted as-is. -/
def mergeMeasureInto (ms : List (String × Measure)) (k : String) (inc : Measure) :
    List (String × Measure) :=
  mergeInto Measure.assign ms k inc

/-- `Area::setMeasure` (area.cpp lines 175–186): the key is the lowercased
codename argument. -/
def Area.setMeasure (a : Area) (codename : String) (measure : Measure) : Area :=
  { a with measures := mergeMeasureInto a.measures (toLower codename) measure }

/-- `Area::size`. -/
def Area.size (a : Area) : Nat := a.measures.length

/-- `Area::operator=` (area.cpp lines 285–302): upsert every name of `other`,
and insert-or-merge every measure of `other`. -/
def Area.assign (a other : Area) : Area :=
  { a with
    names := other.names.foldl (fun acc p => minsert strLt acc p.1 p.2) a.names
    measures := other.measures.foldl (fun acc p => mergeMeasureInto acc p.1 p.2) a.measures }

/-- The Areas class (areas.h): the authority-code-keyed `std::map` of areas. -/
structure Areas where
  areas : List (String × Area)
deriving DecidableEq

/-- The insert-or-merge step of `Areas::setArea` (areas.cpp lines 62–68). -/
def mergeAreaInto (as : List (String × Area)) (k : String) (inc : Area) :
    List (String × Area) :=
  mergeInto Area.assign as k inc

/-- `Areas::setArea`. -/
def Areas.setArea (d : Areas) (localAuthorityCode : String) (area : Area) : Areas :=
  ⟨mergeAreaInto d.areas localAuthorityCode area⟩

/-- `Areas::getArea`. -/
def Areas.getArea (d : Areas) (localAuthorityCode : String) : Except String Area :=
  match alookup d.areas localAuthorityCode with
  | some a => .ok a
  | none => .error ("No area found matching " ++ localAuthorityCode)

/-- `Areas::size`. -/
def Areas.size (d : Areas) : Nat := d.areas.length

/-! ### Association-list lemmas -/

theorem ofirst_some {β : Type _} (v : β) (y : Option β) : ofirst (some v) y = some v := rfl

theorem ofirst_none {β : Type _} (y : Option β) : ofirst none y = y := rfl

theorem ofirst_self_absorb {β : Type _} (x y : Option β) :
    ofirst x (ofirst x y) = ofirst x y := by
  cases x <;> rfl

theorem ofirst_isSome {β : Type _} (x y : Option β) :
    (ofirst x y).isSome = (x.isSome || y.isSome) := by
  cases x <;> simp [ofirst]

theorem alookup_minsert_self {α β : Type _} [DecidableEq α] (lt : α → α → Bool)
    (l : List (α × β)) (k : α) (v : β) : alookup (minsert lt l k v) k = some v := by
  induction l with
  | nil => simp [minsert, alookup]
  | cons p t ih =>
    obtain ⟨k₀, v₀⟩ := p
    simp only [minsert]
    by_cases hlt : lt k k₀ = true
    · rw [if_pos hlt]
      simp [alookup]
    · rw [if_neg hlt]
      by_cases he : k = k₀
      · rw [if_pos he]
        simp [alookup]
      · rw [if_neg he, alookup, if_neg (fun h => he h.symm)]
        exact ih

theorem alookup_minsert_ne {α β : Type _} [DecidableEq α] (lt : α → α → Bool)
    (l : List (α × β)) (k k' : α) (v : β) (hne : k' ≠ k) :
    alookup (minsert lt l k v) k' = alookup l k' := by
  induction l with
  | nil =>
    simp only [minsert, alookup]
    rw [if_neg (Ne.symm hne)]
  | cons p t ih =>
    obtain ⟨k₀, v₀⟩ := p
    simp only [minsert]
    by_cases hlt : lt k k₀ = true
    · rw [if_pos hlt, alookup, if_neg (Ne.symm hne)]
    · rw [if_neg hlt]
      by_cases he : k = k₀
      · subst he
        rw [if_pos rfl, alookup, if_neg (Ne.symm hne), alookup, if_neg (Ne.symm hne)]
      · rw [if_neg he, alookup, alookup]
        by_cases h0 : k₀ = k'
        · rw [if_pos h0, if_pos h0]
        · rw [if_neg h0, if_neg h0]
          exact ih

theorem alookup_updateFirst_self {α β : Type _} [DecidableEq α] (f : β → β)
    (l : List (α × β)) (k : α) :
    alookup (updateFirst f l k) k = (alookup l k).map f := by
  induction l with
  | nil => simp [updateFirst, alookup]
  | cons p t ih =>
    obtain ⟨k₀, v₀⟩ := p
    simp only [updateFirst]
    by_cases h0 : k₀ = k
    · rw [if_pos h0, alookup, if_pos h0, alookup, if_pos h0]
      rfl
    · rw [if_neg h0, alookup, if_neg h0, alookup, if_neg h0]
      exact ih

theorem alookup_updateFirst_ne {α β : Type _} [DecidableEq α] (f : β → β)
    (l : List (α × β)) (k k' : α) (hne : k' ≠ k) :
    alookup (updateFirst f l k) k' = alookup l k' := by
  induction l with
  | nil => simp [updateFirst, alookup]
  | cons p t ih =>
    obtain ⟨k₀, v₀⟩ := p
    simp only [updateFirst]
    by_cases h0 : k₀ = k
    · rw [if_pos h0, alookup, alookup]
      by_cases h1 : k₀ = k'
      · exact absurd (h1.symm.trans h0) hne
      · rw [if_neg h1, if_neg h1]
    · rw [if_neg h0, alookup, alookup]
      by_cases h1 : k₀ = k'
      · rw [if_pos h1, if_pos h1]
      · rw [if_neg h1, if_neg h1]
        exact ih

theorem alookup_eq_none_of_not_mem {α β : Type _} [DecidableEq α]
    (l : List (α × β)) (k : α) (h : k ∉ l.map Prod.fst) : alookup l k = none := by
  induction l with
  | nil => rfl
  | cons p t ih =>
    obtain ⟨k₀, v₀⟩ := p
    simp only [List.map_cons, List.mem_cons, not_or] at h
    rw [alookup, if_neg (fun hh => h.1 hh.symm)]
    exact ih h.2

theorem lastVal_isSome {α β : Type _} [DecidableEq α] (l : List (α × β)) (k : α) :
    (lastVal l k).isSome = (alookup l k).isSome := by
  induction l with
  | nil => rfl
  | cons p t ih =>
    obtain ⟨k₀, v₀⟩ := p
    rw [lastVal, alookup, ofirst_isSome, ih]
    by_cases h0 : k₀ = k
    · rw [if_pos h0, if_pos h0]
      simp
    · rw [if_neg h0, if_neg h0]
      simp

theorem lastVal_eq_none {α β : Type _} [DecidableEq α] (l : List (α × β)) (k : α)
    (h : alookup l k = none) : lastVal l k = none := by
  have hs := lastVal_isSome l k
  rw [h] at hs
  cases hl : lastVal l k with
  | none => rfl
  | some v => rw [hl] at hs; simp at hs

theorem lastVal_eq_alookup_of_nodup {α β : Type _} [DecidableEq α]
    (l : List (α × β)) (k : α) (hnd : (l.map Prod.fst).Nodup) :
    lastVal l k = alookup l k := by
  induction l with
  | nil => rfl
  | cons p t ih =>
    obtain ⟨k₀, v₀⟩ := p
    simp only [List.map_cons, List.nodup_cons] at hnd
    rw [lastVal, alookup]
    by_cases h0 : k₀ = k
    · subst h0
      rw [lastVal_eq_none t k₀ (alookup_eq_none_of_not_mem t k₀ hnd.1), ofirst_none,
        if_pos rfl, if_pos rfl]
    · rw [if_neg h0, if_neg h0, ← ih hnd.2]
      cases hl : lastVal t k with
      | none => rw [ofirst_none]
      | some v => rw [ofirst_some]

theorem alookup_foldl_minsert {α β : Type _} [DecidableEq α] (lt : α → α → Bool)
    (l : List (α × β)) (m : List (α × β)) (k : α) :
    alookup (l.foldl (fun acc p => minsert lt acc p.1 p.2) m) k
      = ofirst (lastVal l k) (alookup m k) := by
  induction l generalizing m with
  | nil => rfl
  | cons p t ih =>
    obtain ⟨k₀, v₀⟩ := p
    rw [List.foldl_cons, ih, lastVal]
    cases hl : lastVal t k with
    | none =>
      rw [ofirst_none, ofirst_none]
      by_cases h0 : k₀ = k
      · subst h0
        rw [if_pos rfl, ofirst_some]
        exact alookup_minsert_self lt m k₀ v₀
      · rw [if_neg h0, ofirst_none]
        exact alookup_minsert_ne lt m k₀ k v₀ (fun h => h0 h.symm)
    | some v => simp [ofirst]

theorem lastVal_append {α β : Type _} [DecidableEq α] (a b : List (α × β)) (k : α) :
    lastVal (a ++ b) k = ofirst (lastVal b k) (lastVal a k) := by
  induction a with
  | nil =>
    rw [List.nil_append]
    cases hl : lastVal b k <;> simp [hl, ofirst, lastVal]
  | cons p t ih =>
    obtain ⟨k₀, v₀⟩ := p
    rw [List.cons_append, lastVal, lastVal, ih]
    cases hl : lastVal b k with
    | none => rw [ofirst_none, ofirst_none]
    | some v => simp [ofirst]

/-! ### Merge lemmas -/

theorem alookup_mergeInto_self {β : Type _} (f : β → β → β)
    (ms : List (String × β)) (k : String) (inc : β) :
    alookup (mergeInto f ms k inc) k
      = some (match alookup ms k with | some old => f old inc | none => inc) := by
  unfold mergeInto
  cases h : alookup ms k with
  | some old =>
    rw [if_pos (show (some old).isSome = true from rfl), alookup_updateFirst_self, h]
    rfl
  | none =>
    have hn : ¬ ((none : Option β).isSome = true) := by simp
    rw [if_neg hn, alookup_minsert_self]

theorem alookup_mergeInto_ne {β : Type _} (f : β → β → β)
    (ms : List (String × β)) (k k' : String) (inc : β) (hne : k' ≠ k) :
    alookup (mergeInto f ms k inc) k' = alookup ms k' := by
  unfold mergeInto
  by_cases h : (alookup ms k).isSome = true
  · rw [if_pos h]
    exact alookup_updateFirst_ne _ ms k k' hne
  · rw [if_neg h]
    exact alookup_minsert_ne _ ms k k' inc hne

theorem alookup_mergeInto_self_of_some {β : Type _} (f : β → β → β)
    (ms : List (String × β)) (k : String) (inc old : β) (h : alookup ms k = some old) :
    alookup (mergeInto f ms k inc) k = some (f old inc) := by
  rw [alookup_mergeInto_self, h]

theorem alookup_mergeInto_self_of_none {β : Type _} (f : β → β → β)
    (ms : List (String × β)) (k : String) (inc : β) (h : alookup ms k = none) :
    alookup (mergeInto f ms k inc) k = some inc := by
  rw [alookup_mergeInto_self, h]

/-- The measure stored under `k` after a sequence of insert-or-merge steps:
`start` is the previously stored measure (if any), the list holds the incoming
mapped values for key `k` in order. -/
def mergeSeq {β : Type _} (f : β → β → β) : Option β → List β → Option β
  | start, [] => start
  | start, n :: t => mergeSeq f (some (match start with | some m => f m n | none => n)) t

/-- The incoming mapped values for key `k`, in iteration order. -/
def opsAt {β : Type _} (l : List (String × β)) (k : String) : List β :=
  (l.filter (fun p => decide (p.1 = k))).map Prod.snd

theorem alookup_foldl_mergeInto {β : Type _} (f : β → β → β)
    (l : List (String × β)) (ms : List (String × β)) (k : String) :
    alookup (l.foldl (fun acc p => mergeInto f acc p.1 p.2) ms) k
      = mergeSeq f (alookup ms k) (opsAt l k) := by
  induction l generalizing ms with
  | nil => rfl
  | cons p t ih =>
    obtain ⟨k₀, n⟩ := p
    rw [List.foldl_cons, ih]
    by_cases h0 : k₀ = k
    · subst h0
      rw [alookup_mergeInto_self]
      have hops : opsAt ((k₀, n) :: t) k₀ = n :: opsAt t k₀ := by
        simp [opsAt]
      rw [hops]
      rfl
    · have hops : opsAt ((k₀, n) :: t) k = opsAt t k := by
        simp [opsAt, h0]
      rw [hops, alookup_mergeInto_ne f ms k₀ k n (fun h => h0 h.symm)]

/-- Repeated upserts of a pair list into a base value map, the effect of
`Measure::operator=` on the `values` field. -/
def mergeVals (base L : List (Nat × ℚ)) : List (Nat × ℚ) :=
  L.foldl (fun acc p => minsert Nat.blt acc p.1 p.2) base

/-- Concatenation of the value lists of a sequence of incoming measures. -/
def valsOf (ops : List Measure) : List (Nat × ℚ) :=
  (ops.map Measure.values).flatten

theorem assign_eq_mergeVals (m other : Measure) :
    m.assign other = ⟨m.code, m.label, mergeVals m.values other.values⟩ := rfl

theorem mergeSeq_assign_some (m : Measure) (ops : List Measure) :
    mergeSeq Measure.assign (some m) ops
      = some ⟨m.code, m.label, mergeVals m.values (valsOf ops)⟩ := by
  induction ops generalizing m with
  | nil =>
    rw [mergeSeq]
    rfl
  | cons n t ih =>
    rw [mergeSeq]
    show mergeSeq Measure.assign (some (m.assign n)) t = _
    rw [ih]
    simp only [Measure.assign, valsOf, List.map_cons, List.flatten_cons, mergeVals,
      List.foldl_append]

theorem alookup_mergeVals (base L : List (Nat × ℚ)) (y : Nat) :
    alookup (mergeVals base L) y = ofirst (lastVal L y) (alookup base y) :=
  alookup_foldl_minsert Nat.blt L base y

theorem mergeSeq_nil {β : Type _} (f : β → β → β) (s : Option β) : mergeSeq f s [] = s := rfl

theorem mergeSeq_isSome_some {β : Type _} (f : β → β → β) (m : β) (ops : List β) :
    (mergeSeq f (some m) ops).isSome = true := by
  induction ops generalizing m with
  | nil => rfl
  | cons n t ih => exact ih (f m n)

theorem mergeSeq_cons_isSome {β : Type _} (f : β → β → β) (s : Option β) (n : β) (t : List β) :
    (mergeSeq f s (n :: t)).isSome = true := by
  cases s with
  | some m => exact mergeSeq_isSome_some f (f m n) t
  | none => exact mergeSeq_isSome_some f n t

theorem mergeSeq_assign_none_cons (n : Measure) (t : List Measure) :
    mergeSeq Measure.assign none (n :: t)
      = some ⟨n.code, n.label, mergeVals n.values (valsOf t)⟩ :=
  mergeSeq_assign_some n t

theorem opsAt_mem {β : Type _} (l : List (String × β)) (k : String) (n : β)
    (h : n ∈ opsAt l k) : ∃ p ∈ l, p.2 = n := by
  simp only [opsAt, List.mem_map] at h
  obtain ⟨q, hq, hqn⟩ := h
  exact ⟨q, List.mem_of_mem_filter hq, hqn⟩

theorem mergeVals_idem_lookup (base V : List (Nat × ℚ)) (y : Nat) :
    alookup (mergeVals (mergeVals base V) V) y = alookup (mergeVals base V) y := by
  simp only [alookup_mergeVals]
  rw [ofirst_self_absorb]

theorem mergeVals_none_idem_lookup (n : Measure) (t : List Measure) (y : Nat)
    (hnd : (n.values.map Prod.fst).Nodup) :
    alookup (mergeVals (mergeVals n.values (valsOf t)) (valsOf (n :: t))) y
      = alookup (mergeVals n.values (valsOf t)) y := by
  have hv : valsOf (n :: t) = n.values ++ valsOf t := by simp [valsOf]
  rw [hv]
  simp only [alookup_mergeVals]
  rw [lastVal_append]
  cases hL : lastVal (valsOf t) y with
  | some v => simp [ofirst]
  | none =>
    rw [ofirst_none, ofirst_none, lastVal_eq_alookup_of_nodup n.values y hnd]
    cases alookup n.values y <;> rfl

/-- Observer: the value stored for `year` in the measure stored under `code`
of an area (the composition of the two map lookups; used to state claims). -/
def measureValueAt (a : Area) (code : String) (year : Nat) : Option ℚ :=
  (alookup a.measures code).bind (fun m => alookup m.values year)

/-- C1: after `setMeasure(c, m1)` then `setMeasure(c, m2)` on any area, the
series stored under the lowercased code holds `m2`'s value for every year of
`m2` (in particular every year in both), and `m1`'s value for every year of
`m1` that is not in `m2`. -/
theorem assign_values_lookup (s1 m2 : Measure) (y : Nat) :
    alookup (s1.assign m2).values y
      = ofirst (lastVal m2.values y) (alookup s1.values y) := by
  show alookup (mergeVals s1.values m2.values) y = _
  exact alookup_mergeVals _ _ _

theorem claim_C1 (a : Area) (c : String) (m1 m2 : Measure) (y : Nat)
    (h1 : (m1.values.map Prod.fst).Nodup) (h2 : (m2.values.map Prod.fst).Nodup) :
    (∀ v2, alookup m2.values y = some v2 →
      measureValueAt ((a.setMeasure c m1).setMeasure c m2) (toLower c) y = some v2)
    ∧ (∀ v1, alookup m1.values y = some v1 → alookup m2.values y = none →
      measureValueAt ((a.setMeasure c m1).setMeasure c m2) (toLower c) y = some v1) := by
  have hstep := alookup_mergeInto_self_of_some Measure.assign
      (mergeInto Measure.assign a.measures (toLower c) m1) (toLower c) m2 _
      (alookup_mergeInto_self Measure.assign a.measures (toLower c) m1)
  constructor
  · intro v2 hv2
    simp only [measureValueAt, Area.setMeasure, mergeMeasureInto]
    rw [hstep, Option.some_bind, assign_values_lookup,
      lastVal_eq_alookup_of_nodup _ _ h2, hv2, ofirst_some]
  · intro v1 hv1 hv2
    simp only [measureValueAt, Area.setMeasure, mergeMeasureInto]
    rw [hstep, Option.some_bind, assign_values_lookup,
      lastVal_eq_none _ _ hv2, ofirst_none]
    cases hB : alookup a.measures (toLower c) with
    | none =>
      exact hv1
    | some old =>
      show alookup (Measure.assign old m1).values y = some v1
      rw [assign_values_lookup, lastVal_eq_alookup_of_nodup _ _ h1, hv1, ofirst_some]

/-- Concrete series for the C1 witness. -/
def c1m1 : Measure := ⟨"pop", "Population", [(1991, 1), (1992, 2)]⟩

/-- Concrete series for the C1 witness (overlapping year 1992). -/
def c1m2 : Measure := ⟨"pop", "Population", [(1992, 5)]⟩

/-- Witness for C1 at concrete inputs: year 1992 (in both series) takes m2's
value 5, year 1991 (only in m1) keeps m1's value 1. -/
theorem claim_C1_witness :
    measureValueAt (((Area.make "W1").setMeasure "POP" c1m1).setMeasure "POP" c1m2)
        (toLower "POP") 1992 = some 5
    ∧ measureValueAt (((Area.make "W1").setMeasure "POP" c1m1).setMeasure "POP" c1m2)
        (toLower "POP") 1991 = some 1 :=
  ⟨(claim_C1 (Area.make "W1") "POP" c1m1 c1m2 1992 (by decide) (by decide)).1 5 (by decide),
   (claim_C1 (Area.make "W1") "POP" c1m1 c1m2 1991 (by decide) (by decide)).2 1
     (by decide) (by decide)⟩

/-- C4: merging Area `A` into Area `B` twice (via `Area::operator=`) is
idempotent: the names mapping, the set of stored measure codes, and every
stored measure's year-to-value mapping are the same after one merge and after
two merges with the same source. -/
theorem claim_C4 (A B : Area) (lang code : String) (year : Nat)
    (hA : ∀ p ∈ A.measures, ((p : String × Measure).2.values.map Prod.fst).Nodup) :
    alookup ((B.assign A).assign A).names lang = alookup (B.assign A).names lang
    ∧ (alookup ((B.assign A).assign A).measures code).isSome
        = (alookup (B.assign A).measures code).isSome
    ∧ measureValueAt ((B.assign A).assign A) code year
        = measureValueAt (B.assign A) code year := by
  refine ⟨?_, ?_, ?_⟩
  · simp only [Area.assign]
    rw [alookup_foldl_minsert, alookup_foldl_minsert, ofirst_self_absorb]
  · simp only [Area.assign, mergeMeasureInto]
    rw [alookup_foldl_mergeInto, alookup_foldl_mergeInto]
    cases hops : opsAt A.measures code with
    | nil => rw [mergeSeq_nil, mergeSeq_nil]
    | cons n t => rw [mergeSeq_cons_isSome, mergeSeq_cons_isSome]
  · simp only [measureValueAt, Area.assign, mergeMeasureInto]
    rw [alookup_foldl_mergeInto, alookup_foldl_mergeInto]
    cases hops : opsAt A.measures code with
    | nil => rw [mergeSeq_nil, mergeSeq_nil]
    | cons n t =>
      cases hB : alookup B.measures code with
      | some m0 =>
        rw [mergeSeq_assign_some, mergeSeq_assign_some, Option.some_bind, Option.some_bind]
        exact mergeVals_idem_lookup m0.values (valsOf (n :: t)) year
      | none =>
        rw [mergeSeq_assign_none_cons, mergeSeq_assign_some, Option.some_bind,
          Option.some_bind]
        apply mergeVals_none_idem_lookup n t year
        obtain ⟨p, hp, hpn⟩ := opsAt_mem A.measures code n (by rw [hops]; exact List.mem_cons_self n t)
        exact hpn ▸ hA p hp

/-- Concrete source area for the C4 witness. -/
def c4A : Area := ⟨"W1", [("eng", "Foo")], [("pop", ⟨"pop", "Population", [(1991, 3)]⟩)]⟩

/-- Concrete target area for the C4 witness (overlapping name key and measure
code, plus an extra year). -/
def c4B : Area :=
  ⟨"W1", [("eng", "Old"), ("cym", "Hen")],
   [("pop", ⟨"pop", "Population", [(1991, 1), (1992, 2)]⟩)]⟩

/-- Witness for C4 at concrete areas, instantiated at the overlapping name
key, the shared measure code and the overlapping year. -/
theorem claim_C4_witness :
    alookup ((c4B.assign c4A).assign c4A).names "eng" = alookup (c4B.assign c4A).names "eng"
    ∧ (alookup ((c4B.assign c4A).assign c4A).measures "pop").isSome
        = (alookup (c4B.assign c4A).measures "pop").isSome
    ∧ measureValueAt ((c4B.assign c4A).assign c4A) "pop" 1991
        = measureValueAt (c4B.assign c4A) "pop" 1991 :=
  claim_C4 c4A c4B "eng" "pop" 1991 (by decide)

/-- C10: merging one measure series into another — as performed by
`Area::setMeasure` on an existing code, by the measures loop of
`Area::operator=`, and by `Areas::setArea` on an existing area — never
changes the stored measure's codename or label; only the value mapping is
touched. -/
theorem claim_C10 :
    (∀ (a : Area) (c : String) (n m : Measure), alookup a.measures (toLower c) = some m →
      (alookup (a.setMeasure c n).measures (toLower c)).map Measure.code = some m.code
      ∧ (alookup (a.setMeasure c n).measures (toLower c)).map Measure.label = some m.label)
    ∧ (∀ (a other : Area) (k : String) (m : Measure), alookup a.measures k = some m →
      (alookup (a.assign other).measures k).map Measure.code = some m.code
      ∧ (alookup (a.assign other).measures k).map Measure.label = some m.label)
    ∧ (∀ (d : Areas) (code : String) (inc stored : Area) (k : String) (m : Measure),
        alookup d.areas code = some stored → alookup stored.measures k = some m →
      ((alookup (d.setArea code inc).areas code).bind
          (fun x => alookup x.measures k)).map Measure.code = some m.code
      ∧ ((alookup (d.setArea code inc).areas code).bind
          (fun x => alookup x.measures k)).map Measure.label = some m.label) := by
  have part2 : ∀ (a other : Area) (k : String) (m : Measure), alookup a.measures k = some m →
      (alookup (a.assign other).measures k).map Measure.code = some m.code
      ∧ (alookup (a.assign other).measures k).map Measure.label = some m.label := by
    intro a other k m hm
    simp only [Area.assign, mergeMeasureInto]
    rw [alookup_foldl_mergeInto, hm, mergeSeq_assign_some]
    exact ⟨rfl, rfl⟩
  refine ⟨?_, part2, ?_⟩
  · intro a c n m hm
    simp only [Area.setMeasure, mergeMeasureInto]
    rw [alookup_mergeInto_self_of_some Measure.assign a.measures (toLower c) n m hm]
    exact ⟨rfl, rfl⟩
  · intro d code inc stored k m hstored hm
    simp only [Areas.setArea, mergeAreaInto]
    rw [alookup_mergeInto_self_of_some Area.assign d.areas code inc stored hstored,
      Option.some_bind]
    exact part2 stored inc k m hm

/-- Concrete stored measure for the C10 witness. -/
def c10m : Measure := ⟨"pop", "Population", [(1991, 1)]⟩

/-- Concrete incoming measure for the C10 witness: different label and year. -/
def c10n : Measure := ⟨"pop", "A different label", [(1992, 2)]⟩

/-- Concrete area storing `c10m` for the C10 witness. -/
def c10a : Area := ⟨"W1", [], [("pop", c10m)]⟩

/-- Concrete incoming area carrying `c10n` for the C10 witness. -/
def c10other : Area := ⟨"W1", [], [("pop", c10n)]⟩

/-- Concrete collection for the C10 witness. -/
def c10d : Areas := ⟨[("W1", c10a)]⟩

/-- Witness for C10: all three merge paths at concrete inputs, with an
incoming measure that carries a different label. -/
theorem claim_C10_witness :
    ((alookup (c10a.setMeasure "POP" c10n).measures (toLower "POP")).map Measure.code
        = some c10m.code
      ∧ (alookup (c10a.setMeasure "POP" c10n).measures (toLower "POP")).map Measure.label
        = some c10m.label)
    ∧ ((alookup (c10a.assign c10other).measures "pop").map Measure.code = some c10m.code
      ∧ (alookup (c10a.assign c10other).measures "pop").map Measure.label = some c10m.label)
    ∧ (((alookup (c10d.setArea "W1" c10other).areas "W1").bind
          (fun x => alookup x.measures "pop")).map Measure.code = some c10m.code
      ∧ ((alookup (c10d.setArea "W1" c10other).areas "W1").bind
          (fun x => alookup x.measures "pop")).map Measure.label = some c10m.label) :=
  ⟨claim_C10.1 c10a "POP" c10n c10m (by decide),
   claim_C10.2.1 c10a c10other "pop" c10m (by decide),
   claim_C10.2.2 c10d "W1" c10other c10a "pop" c10m (by decide) (by decide)⟩

/-- Concrete area for C2: one measure stored under lowercase code "pop". -/
def c2area : Area := (Area.make "W1").setMeasure "pop" (Measure.make "pop" "Population")

/-- C2 (code bug): `Area::getMeasure` documents itself as case-insensitive and
even computes a lowercased copy of the key, but then calls `measures.at(key)`
with the original key.  Querying "POP" against a series stored under "pop"
therefore fails with NotFound, while the all-lowercase query succeeds. -/
theorem claim_C2 :
    c2area.getMeasure "POP" = .error "No measure found matching POP"
    ∧ toLower "POP" = "pop"
    ∧ c2area.getMeasure "pop" = .ok ⟨"pop", "Population", []⟩ :=
  ⟨rfl, rfl, rfl⟩

/-- C3 counterexample: the claim says `getName(k)` returns the stored name for
every `k` equal to the language code up to case.  After `setName("ENG", "Foo")`
(stored under "eng"), querying "ENG" itself — equal to the code up to case —
returns nothing, because `Area::getName` does no case conversion. -/
theorem claim_C3_counterexample :
    ((Area.make "W1").setName "ENG" "Foo").map (fun a1 => a1.getName "ENG")
      = .ok none := rfl

/-- C3 (amended): for a 3-letter alphabetic `lang` of any casing,
`setName(lang, name)` succeeds and stores under the lowercased code, and
`getName` retrieves the name for the lowercased code (the lookup itself is
case-sensitive, so only the lowercase form of the code retrieves it). -/
theorem claim_C3 (a : Area) (lang name : String)
    (hlen : lang.data.length = 3) (halpha : lang.data.all isAlphaChar = true) :
    (a.setName lang name).map (fun a1 => a1.getName (toLower lang))
      = .ok (some name) := by
  have h1 : ¬ (lang.data.length ≠ 3) := fun h => h hlen
  have h2 : ¬ ((!(lang.data.all isAlphaChar)) = true) := by
    rw [halpha]
    simp
  rw [Area.setName, if_neg h1, if_neg h2]
  simp only [Except.map]
  exact congrArg Except.ok (by
    show alookup (minsert strLt a.names (toLower lang) name) (toLower lang) = some name
    exact alookup_minsert_self strLt a.names (toLower lang) name)

/-- Witness for the amended C3 at a concrete mixed-case code. -/
theorem claim_C3_witness :
    ((Area.make "W1").setName "ENG" "Foo").map (fun a1 => a1.getName (toLower "ENG"))
      = .ok (some "Foo") :=
  claim_C3 (Area.make "W1") "ENG" "Foo" (by decide) (by decide)

/-! ### Rendering (operator<< for Measure and Area) -/

/-- Fuel-based decimal digit count; `digitCountAux fuel n` is the number of
decimal digits of `n` whenever `fuel` is at least that number (1 for `n` < 10). -/
def digitCountAux : Nat → Nat → Nat
  | 0, _ => 1
  | fuel + 1, n => if n < 10 then 1 else digitCountAux fuel (n / 10) + 1

/-- Number of decimal digits of a natural number (1 for 0). -/
def digitCount (n : Nat) : Nat := digitCountAux n n

/-- Fuel-based decimal digit list of a natural number. -/
def natDigitsAux : Nat → Nat → List Char
  | 0, _ => []
  | fuel + 1, n =>
    if n < 10 then [Char.ofNat (48 + n)]
    else natDigitsAux fuel (n / 10) ++ [Char.ofNat (48 + n % 10)]

/-- Decimal representation of a natural number (`std::to_string` / `%d`). -/
def natToString (n : Nat) : String := String.mk (natDigitsAux (n + 1) n)

/-- `Measure::getValueWidth` (measure.cpp lines 317–339): number of characters
of the value printed with 6 fraction digits.  The source computes the digits
before the decimal point as `int(log10(v)) + 1` for `v ≥ 1` (and
`int(log10(-v)) + 2` for `v ≤ -1`), which is the decimal digit count of
`⌊v⌋` (resp. one more than the digit count of `⌊-v⌋`); between -1 and 1 it is
the single digit 0.  7 is added for the point and the six fraction digits. -/
def getValueWidth (v : ℚ) : Int :=
  (if 1 ≤ v then (digitCount v.floor.toNat : Int)
   else if v ≤ -1 then (digitCount (qneg v).floor.toNat : Int) + 1
   else 1) + 7

/-- Right-justify `s` in a field of `w` characters, padding with spaces. -/
def padLeftTo (w : Nat) (s : String) : String :=
  String.mk (List.replicate (w - s.data.length) ' ') ++ s

/-- One `snprintf`-formatted cell: the right-justified content plus one
trailing space, truncated to `w + 1` characters (the buffer of the format
helpers holds `formatWidth + 2` bytes, one being the terminating NUL). -/
def snprintfCell (w : Int) (s : String) : String :=
  String.mk ((padLeftTo w.toNat s ++ " ").data.take (w.toNat + 1))

/-- Decimal expansion of `v` with exactly six fraction digits: the `%.6f`
conversion on the rational idealisation (round half up; every concrete value
in this file is exact, so no tie or double-rounding is exercised). -/
def decimal6 (v : ℚ) : String :=
  let n : Nat := (qadd (qmul (qabs v) (mkRat 1000000 1)) (mkRat 1 2)).floor.toNat
  let fs := natToString (n % 1000000)
  (if v < 0 then "-" else "") ++ natToString (n / 1000000) ++ "."
    ++ String.mk (List.replicate (6 - fs.data.length) '0') ++ fs

/-- `Measure::formatYear`: `snprintf` with format `%*d `. -/
def formatYear (year : Nat) (formatWidth : Int) : String :=
  snprintfCell formatWidth (natToString year)

/-- `Measure::formatValue`: `snprintf` with format `%*.6f `. -/
def formatValue (value : ℚ) (formatWidth : Int) : String :=
  snprintfCell formatWidth (decimal6 value)

/-- `Measure::formatHeading`: `snprintf` with format `%*s `. -/
def formatHeading (heading : String) (formatWidth : Int) : String :=
  snprintfCell formatWidth heading

/-- The cells of the header row of `operator<<(ostream, Measure)` in output
order: one `formatYear` cell per year (width from that year's VALUE), then the
three statistic headings (width from each statistic's own value). -/
def measureHeaderCells (m : Measure) : List String :=
  m.values.map (fun p => formatYear p.1 (getValueWidth p.2))
  ++ [formatHeading "Average" (getValueWidth m.getAverage),
      formatHeading "Diff." (getValueWidth m.getDifference),
      formatHeading "% Diff." (getValueWidth m.getDifferenceAsPercentage)]

/-- The cells of the value row of `operator<<(ostream, Measure)` in output
order: one `formatValue` cell per value, then the three statistics. -/
def measureValueCells (m : Measure) : List String :=
  m.values.map (fun p => formatValue p.2 (getValueWidth p.2))
  ++ [formatValue m.getAverage (getValueWidth m.getAverage),
      formatValue m.getDifference (getValueWidth m.getDifference),
      formatValue m.getDifferenceAsPercentage (getValueWidth m.getDifferenceAsPercentage)]

/-- `operator<<(std::ostream, const Measure&)` (measure.cpp lines 222–254):
label/code line, header row, value row. -/
def renderMeasure (m : Measure) : String :=
  m.label ++ " (" ++ m.code ++ ") " ++ "\n"
  ++ String.join (measureHeaderCells m) ++ "\n"
  ++ String.join (measureValueCells m) ++ "\n"

/-- The name part of `operator<<(std::ostream, const Area&)`: English and
Welsh name joined by " / " when both exist, a single name when one exists,
"Unnamed" otherwise. -/
def renderAreaName (a : Area) : String :=
  match alookup a.names "eng", alookup a.names "cym" with
  | some e, some c => e ++ " / " ++ c
  | some e, none => e
  | none, some c => c
  | none, none => "Unnamed"

/-- `operator<<(std::ostream, const Area&)` (area.cpp lines 224–245): the
name line with the authority code, then each measure's rendering followed by
an extra newline.  NOTE: the loop body is all the function does after the
header; there is no empty-measures placeholder in the source. -/
def renderArea (a : Area) : String :=
  renderAreaName a ++ " (" ++ a.authorityCode ++ ")" ++ "\n"
  ++ String.join (a.measures.map (fun p => renderMeasure p.2 ++ "\n"))

/-- Concrete area for C8: a name but no measures. -/
def c8area : Area := ⟨"W1", [("eng", "Foo")], []⟩

/-- C8 (code bug): rendering an Area with no measures produces ONLY the
name/authority-code header line — no placeholder line follows, although the
function's own block comment (area.cpp lines 210–211) promises the line
"<no measures>" and the claim promises a "no data" placeholder. -/
theorem claim_C8 : renderArea c8area = "Foo (W1)\n" := rfl

/-- Spec-side definition for comparison (C7): the integer-digit width of one
value as the spec words it (sign adds one). -/
def specIntWidth (v : ℚ) : Int :=
  (if v < 0 then 1 else 0) + (digitCount (qabs v).floor.toNat : Int)

/-- Spec-side definition for comparison (C7): the single per-series column
width the spec describes, `max(integer-digit-width of any value, 1) + 7`. -/
def specSeriesWidth (m : Measure) : Int :=
  (m.values.map (fun p => specIntWidth p.2)).foldl max 1 + 7

/-- Spec-side rendering for comparison (C7): as `renderMeasure` but with the
single series-wide width applied uniformly to every column, per the spec's
words. -/
def specUniformRenderMeasure (m : Measure) : String :=
  m.label ++ " (" ++ m.code ++ ") " ++ "\n"
  ++ String.join (m.values.map (fun p => formatYear p.1 (specSeriesWidth m)))
  ++ formatHeading "Average" (specSeriesWidth m)
  ++ formatHeading "Diff." (specSeriesWidth m)
  ++ formatHeading "% Diff." (specSeriesWidth m)
  ++ "\n"
  ++ String.join (m.values.map (fun p => formatValue p.2 (specSeriesWidth m)))
  ++ formatValue m.getAverage (specSeriesWidth m)
  ++ formatValue m.getDifference (specSeriesWidth m)
  ++ formatValue m.getDifferenceAsPercentage (specSeriesWidth m)
  ++ "\n"

/-- Concrete series for C7: values 5.0 and 500.0 have different widths. -/
def c7m : Measure := ⟨"pop", "Population", [(2000, 5), (2001, 500)]⟩

/-- C7 counterexample: the widths of the two value columns differ (8 vs 10),
so no single series-wide width `max(digit width) + 7 = 10` is applied to
every column, and the actual rendering differs from the spec's uniform-width
rendering on this series. -/
theorem claim_C7_counterexample :
    getValueWidth (5 : ℚ) = 8 ∧ getValueWidth (500 : ℚ) = 10
    ∧ specSeriesWidth c7m = 10
    ∧ renderMeasure c7m ≠ specUniformRenderMeasure c7m := by
  refine ⟨by decide, by decide, by decide, by decide⟩

theorem smk_data (l : List Char) : (String.mk l).data = l := rfl

theorem sdata_append (a b : String) : (a ++ b).data = a.data ++ b.data := by
  cases a
  cases b
  rfl

theorem snprintfCell_length (w : Int) (s : String) (h : s.data.length ≤ w.toNat) :
    (snprintfCell w s).data.length = w.toNat + 1 := by
  show ((padLeftTo w.toNat s ++ " ").data.take (w.toNat + 1)).length = w.toNat + 1
  simp only [List.length_take, sdata_append, List.length_append, padLeftTo, smk_data,
    List.length_replicate]
  have h1 : (" " : String).data.length = 1 := rfl
  rw [h1]
  omega

theorem one_le_digitCountAux (fuel n : Nat) : 1 ≤ digitCountAux fuel n := by
  induction fuel generalizing n with
  | zero => exact le_refl 1
  | succ f ih =>
    rw [digitCountAux]
    by_cases h : n < 10
    · rw [if_pos h]
    · rw [if_neg h]
      have := ih (n / 10)
      omega

theorem one_le_digitCount (n : Nat) : 1 ≤ digitCount n := one_le_digitCountAux n n

theorem getValueWidth_ge (v : ℚ) : 8 ≤ getValueWidth v := by
  rw [getValueWidth]
  split_ifs with h1 h2
  · have := one_le_digitCount v.floor.toNat
    omega
  · have := one_le_digitCount (qneg v).floor.toNat
    omega
  · omega

theorem getValueWidth_toNat_ge (v : ℚ) : 8 ≤ (getValueWidth v).toNat := by
  have := getValueWidth_ge v
  omega

theorem qneg_eq (v : ℚ) : qneg v = -v := by
  have h1 : (-v).num = -v.num := Rat.neg_num v
  have h2 : (-v).den = v.den := Rat.neg_den v
  rw [qneg, ← h1, ← h2, Rat.mkRat_self]

theorem map_congr_mem {α β : Type _} (l : List α) (f g : α → β)
    (h : ∀ a ∈ l, f a = g a) : l.map f = l.map g := by
  induction l with
  | nil => rfl
  | cons a t ih =>
    rw [List.map_cons, List.map_cons, h a (List.mem_cons_self a t),
      ih (fun b hb => h b (List.mem_cons_of_mem a hb))]

set_option maxHeartbeats 1000000 in
/-- C7 (amended): column widths in a measure rendering are computed per
column from that column's own value — `getValueWidth` of the value for both
the year header cell and the value cell of that column, and `getValueWidth`
of each derived statistic for its column — not one series-wide maximum; each
printed cell is its width plus one separating space, so the header and value
rows align columnwise.  A negative value is one character wider than its
positive counterpart (the sign). -/
theorem claim_C7 (m : Measure) (v : ℚ) (hv : 1 ≤ v)
    (hfity : ∀ p ∈ m.values, (natToString p.1).data.length ≤ (getValueWidth p.2).toNat)
    (hfitv : ∀ p ∈ m.values, (decimal6 p.2).data.length ≤ (getValueWidth p.2).toNat)
    (hfa : (decimal6 m.getAverage).data.length ≤ (getValueWidth m.getAverage).toNat)
    (hfd : (decimal6 m.getDifference).data.length ≤ (getValueWidth m.getDifference).toNat)
    (hfp : (decimal6 m.getDifferenceAsPercentage).data.length
        ≤ (getValueWidth m.getDifferenceAsPercentage).toNat) :
    (measureHeaderCells m).map (fun s => s.data.length)
        = m.values.map (fun p => (getValueWidth p.2).toNat + 1)
          ++ [(getValueWidth m.getAverage).toNat + 1,
              (getValueWidth m.getDifference).toNat + 1,
              (getValueWidth m.getDifferenceAsPercentage).toNat + 1]
    ∧ (measureValueCells m).map (fun s => s.data.length)
        = m.values.map (fun p => (getValueWidth p.2).toNat + 1)
          ++ [(getValueWidth m.getAverage).toNat + 1,
              (getValueWidth m.getDifference).toNat + 1,
              (getValueWidth m.getDifferenceAsPercentage).toNat + 1]
    ∧ getValueWidth (qneg v) = getValueWidth v + 1 := by
  have e1 : (formatHeading "Average" (getValueWidth m.getAverage)).data.length
      = (getValueWidth m.getAverage).toNat + 1 :=
    snprintfCell_length _ _
      (le_trans (show ("Average" : String).data.length ≤ 8 by decide)
        (getValueWidth_toNat_ge _))
  have e2 : (formatHeading "Diff." (getValueWidth m.getDifference)).data.length
      = (getValueWidth m.getDifference).toNat + 1 :=
    snprintfCell_length _ _
      (le_trans (show ("Diff." : String).data.length ≤ 8 by decide)
        (getValueWidth_toNat_ge _))
  have e3 : (formatHeading "% Diff." (getValueWidth m.getDifferenceAsPercentage)).data.length
      = (getValueWidth m.getDifferenceAsPercentage).toNat + 1 :=
    snprintfCell_length _ _
      (le_trans (show ("% Diff." : String).data.length ≤ 8 by decide)
        (getValueWidth_toNat_ge _))
  refine ⟨?_, ?_, ?_⟩
  · rw [measureHeaderCells, List.map_append, List.map_map]
    congr 1
    · exact map_congr_mem _ _ _
        (fun p hp => snprintfCell_length (getValueWidth p.2) _ (hfity p hp))
    · simp only [List.map_cons, List.map_nil]
      rw [e1, e2, e3]
  · rw [measureValueCells, List.map_append, List.map_map]
    congr 1
    · exact map_congr_mem _ _ _
        (fun p hp => snprintfCell_length (getValueWidth p.2) _ (hfitv p hp))
    · have e4 : (formatValue m.getAverage (getValueWidth m.getAverage)).data.length
          = (getValueWidth m.getAverage).toNat + 1 := snprintfCell_length _ _ hfa
      have e5 : (formatValue m.getDifference (getValueWidth m.getDifference)).data.length
          = (getValueWidth m.getDifference).toNat + 1 := snprintfCell_length _ _ hfd
      have e6 : (formatValue m.getDifferenceAsPercentage
            (getValueWidth m.getDifferenceAsPercentage)).data.length
          = (getValueWidth m.getDifferenceAsPercentage).toNat + 1 :=
        snprintfCell_length _ _ hfp
      simp only [List.map_cons, List.map_nil]
      rw [e4, e5, e6]
  · rw [qneg_eq v, getValueWidth, getValueWidth]
    have h1 : ¬ (1 ≤ -v) := by linarith
    have h2 : -v ≤ -1 := by linarith
    rw [if_neg h1, if_pos h2, if_pos hv, qneg_eq (-v), neg_neg]
    ring

/-- Witness for the amended C7 at the concrete series `c7m` and value 5:
both rows consist of cells of widths 8+1, 10+1 (per column, from the columns'
own values 5 and 500) and then the three statistic widths, and negating 5
widens its cell by one. -/
theorem claim_C7_witness :
    (measureHeaderCells c7m).map (fun s => s.data.length)
        = c7m.values.map (fun p => (getValueWidth p.2).toNat + 1)
          ++ [(getValueWidth c7m.getAverage).toNat + 1,
              (getValueWidth c7m.getDifference).toNat + 1,
              (getValueWidth c7m.getDifferenceAsPercentage).toNat + 1]
    ∧ (measureValueCells c7m).map (fun s => s.data.length)
        = c7m.values.map (fun p => (getValueWidth p.2).toNat + 1)
          ++ [(getValueWidth c7m.getAverage).toNat + 1,
              (getValueWidth c7m.getDifference).toNat + 1,
              (getValueWidth c7m.getDifferenceAsPercentage).toNat + 1]
    ∧ getValueWidth (qneg 5) = getValueWidth 5 + 1 :=
  claim_C7 c7m 5 (by decide) (by decide) (by decide) (by decide) (by decide) (by decide)

/-! ### strtol, parseYear and the CSV ingestion routines -/

/-- C locale `isspace`: space and the five control characters 9–13. -/
def isSpaceChar (c : Char) : Bool := c.toNat = 32 || (9 ≤ c.toNat && c.toNat ≤ 13)

/-- C locale `isdigit`. -/
def isDigitChar (c : Char) : Bool := 48 ≤ c.toNat && c.toNat ≤ 57

/-- Value of a list of decimal digit characters. -/
def digitsVal (ds : List Char) : Nat := ds.foldl (fun a c => a * 10 + (c.toNat - 48)) 0

/-- Model of `strtol(str, &end, 10)`: skip leading whitespace, consume an
optional sign and then a maximal run of digits; the result is the signed
value clamped to the `long` range, paired with the remaining characters (the
`end` pointer).  When no digit is consumed no conversion happens: the value
is 0 and `end` is reset to the START of the string (so leading whitespace or
a lone sign is "unconsumed", but an empty string trivially reaches its end). -/
def strtol10 (s : List Char) : Int × List Char :=
  let afterWS := s.dropWhile isSpaceChar
  let afterSign :=
    if afterWS.head? = some '-' ∨ afterWS.head? = some '+' then afterWS.tail else afterWS
  let ds := afterSign.takeWhile isDigitChar
  let rest := afterSign.dropWhile isDigitChar
  if ds = [] then (0, s)
  else
    let raw : Int := (if afterWS.head? = some '-' then -1 else 1) * digitsVal ds
    (max (min raw (2 ^ 63 - 1)) (-(2 ^ 63)), rest)

/-- `Areas::parseYear` (areas.cpp lines 335–347): `strtol` the whole string
and succeed iff the end pointer reached the terminating NUL; the `long`
result is returned through an `unsigned int`, i.e. reduced mod 2^32. -/
def parseYear (s : String) : Except String Nat :=
  let r := strtol10 s.data
  if r.2 = [] then .ok ((r.1 % (2 ^ 32 : Int)).toNat)
  else .error ("Year value can not be parsed as unsigned int: " ++ s)

/-- `BethYw::isInt` (bethyw.cpp lines 403–411): the same whole-string
`strtol` check. -/
def isInt (s : String) : Bool := (strtol10 s.data).2.isEmpty

/-- `BethYw::is4DigitInt` (bethyw.cpp lines 413–415). -/
def is4DigitInt (num : Int) : Bool := 999 < num && num < 10000

/-- Decimal representation of an `int` (`std::to_string`). -/
def intToString (i : Int) : String :=
  if i < 0 then "-" ++ natToString (-i).toNat else natToString i.toNat

/-- Model of `std::stoi`: `strtol` semantics plus `std::invalid_argument`
when no digit is consumed and `std::out_of_range` when the value leaves the
`int` range. -/
def stoi (s : String) : Except String Int :=
  let afterWS := s.data.dropWhile isSpaceChar
  let afterSign :=
    if afterWS.head? = some '-' ∨ afterWS.head? = some '+' then afterWS.tail else afterWS
  let ds := afterSign.takeWhile isDigitChar
  if ds = [] then .error "invalid stoi argument"
  else
    let raw : Int := (if afterWS.head? = some '-' then -1 else 1) * digitsVal ds
    if raw < -(2 ^ 31) ∨ (2 ^ 31 - 1 : Int) < raw then .error "stoi out of range"
    else .ok raw

/-- The loop of `Areas::getYears` (areas.cpp lines 452–475) over the header
cells after the first. -/
def getYearsAux : List String → Except String (List Nat)
  | [] => .ok []
  | cell :: t =>
    if isInt cell then
      match stoi cell with
      | .error e => .error e
      | .ok year =>
        if is4DigitInt year then
          match getYearsAux t with
          | .error e => .error e
          | .ok ys => .ok (year.toNat :: ys)
        else .error ("Year is not a 4 digit int" ++ intToString year)
    else .error ("Can not be parsed as year :" ++ cell)

/-- `Areas::getYears`: discard the first header cell (the authority-code
column heading), parse each remaining cell as a 4-digit year. -/
def getYears (cells : List String) : Except String (List Nat) :=
  getYearsAux (cells.drop 1)

/-- Run-time outcome of an ingestion routine: a thrown C++ exception, or
undefined behaviour (a null-pointer dereference). -/
inductive RunError
  | thrown (msg : String)
  | undefinedBehaviour
deriving DecidableEq

/-- Helper for `tokenize`: the comma-separated fields of a character list. -/
def splitCellsAux : List Char → List Char → List String
  | [], acc => [String.mk acc.reverse]
  | c :: rest, acc =>
    if c = ',' then String.mk acc.reverse :: splitCellsAux rest []
    else splitCellsAux rest (c :: acc)

/-- The cells that successive `std::getline(stream, cell, ',')` calls produce
from a line: the comma-separated fields, except that a line ending in a comma
does NOT produce a final empty field (that last `getline` hits end-of-stream
and fails), and an empty line produces no field at all. -/
def tokenize (s : String) : List String :=
  match s.data with
  | [] => []
  | cs =>
    if cs.getLast? = some ',' then (splitCellsAux cs []).dropLast
    else splitCellsAux cs []

/-- The three filter pointers handed to the ingestion routines; `none` is a
null pointer. -/
structure Filters where
  areasFilter : Option (List String)
  measuresFilter : Option (List String)
  yearsFilter : Option (Nat × Nat)

/-- `Areas::isIncludedInFilter` (areas.cpp lines 306–323): a null or empty
filter admits everything, otherwise the datum is matched after upper- or
lowercasing. -/
def isIncludedInFilter (filter : Option (List String)) (data : String) (up : Bool) : Bool :=
  match filter with
  | none => true
  | some f =>
    if f.isEmpty then true
    else if up then f.contains (toUpper data) else f.contains (toLower data)

/-- `Areas::isInYearRange` (areas.cpp lines 325–333): `std::get<0>(*yearRange)`
dereferences the pointer WITHOUT a null check, so a null filter is undefined
behaviour; otherwise (0,0) admits every year and any other pair is an
inclusive range. -/
def isInYearRange (yearRange : Option (Nat × Nat)) (year : Nat) : Except RunError Bool :=
  match yearRange with
  | none => .error .undefinedBehaviour
  | some (lo, hi) =>
    if lo = 0 ∧ hi = 0 then .ok true
    else if lo ≤ year ∧ year ≤ hi then .ok true
    else .ok false

/-- `Areas::removeEndline` (areas.cpp lines 477–482): `*str.rbegin()` on an
empty string is undefined behaviour; otherwise a trailing CR or LF is
dropped. -/
def removeEndline (s : String) : Except RunError String :=
  match s.data.getLast? with
  | none => .error .undefinedBehaviour
  | some c =>
    if c = '\r' ∨ c = '\n' then .ok (String.mk s.data.dropLast) else .ok s

/-- Modelled from the spec: `BethYw::isDouble` is declared in bethyw.h but
its definition is not among the sources under verification.  The spec (§4.3,
ingestion routine 3) needs "parseable as a number": an optional sign, a
nonempty digit run, optionally a decimal point with further digits. -/
def isDouble (s : String) : Bool :=
  let cs := match s.data with
    | '-' :: t => t
    | '+' :: t => t
    | cs => cs
  let ip := cs.takeWhile isDigitChar
  match cs.dropWhile isDigitChar with
  | [] => !ip.isEmpty
  | '.' :: fs => !ip.isEmpty && fs.all isDigitChar
  | _ => false

/-- Model of `std::stod` on strings accepted by `isDouble`: the exact
rational value (the inputs exercised here are exactly representable, so the
double rounding step is the identity). -/
def parseDecimal (s : String) : ℚ :=
  let cs := match s.data with
    | '-' :: t => t
    | '+' :: t => t
    | cs => cs
  let ip := cs.takeWhile isDigitChar
  let fp := match cs.dropWhile isDigitChar with
    | '.' :: fs => fs.takeWhile isDigitChar
    | _ => []
  let mag := qadd (mkRat (digitsVal ip : Int) 1) (mkRat (digitsVal fp : Int) (10 ^ fp.length))
  if s.data.head? = some '-' then qneg mag else mag

/-- The per-year loop of `Areas::populateFromAuthorityByYearCSV` (areas.cpp
lines 431–443): a cell is consumed (by `getline`) only when the year passes
the range filter; an empty cell (including a failed `getline` at the end of
the row) is a thrown error; a non-empty cell is stored only when `isDouble`
accepts it, else silently skipped. -/
def readValuesForYears (yearsFilter : Option (Nat × Nat)) :
    List Nat → Measure → List String → Except RunError Measure
  | [], m, _ => .ok m
  | y :: ys, m, cells =>
    match isInYearRange yearsFilter y with
    | .error e => .error e
    | .ok false => readValuesForYears yearsFilter ys m cells
    | .ok true =>
      let value := cells.head?.getD ""
      if value = "" then
        .error (.thrown "Not enough values for all years in authority by year CSV file!")
      else if isDouble value then
        readValuesForYears yearsFilter ys (m.setValue y (parseDecimal value)) cells.tail
      else readValuesForYears yearsFilter ys m cells.tail

/-- The row loop of `Areas::populateFromAuthorityByYearCSV` (areas.cpp lines
418–448). -/
def processRows (measureCode measureLabel : String) (f : Filters) (years : List Nat) :
    List String → Areas → Except RunError Areas
  | [], acc => .ok acc
  | line :: rest, acc =>
    match removeEndline line with
    | .error e => .error e
    | .ok line2 =>
      let cells := tokenize line2
      let authorityCode := cells.head?.getD ""
      if isIncludedInFilter f.areasFilter authorityCode true then
        match readValuesForYears f.yearsFilter years
            (Measure.make measureCode measureLabel) (cells.drop 1) with
        | .error e => .error e
        | .ok newMeasure =>
          processRows measureCode measureLabel f years rest
            (acc.setArea authorityCode
              ((Area.make authorityCode).setMeasure measureCode newMeasure))
      else processRows measureCode measureLabel f years rest acc

/-- The column-mapping keys of datasets.h used by the CSV ingestion. -/
inductive SourceColumn
  | AUTH_CODE
  | AUTH_NAME_ENG
  | AUTH_NAME_CYM
  | MEASURE_CODE
  | MEASURE_NAME
  | SINGLE_MEASURE_CODE
  | SINGLE_MEASURE_NAME
  | YEAR
  | VALUE
deriving DecidableEq

/-- `BethYw::SourceColumnMapping`. -/
def SourceColumnMapping : Type := List (SourceColumn × String)

/-- `cols.at(key)` on the column mapping (throws `std::out_of_range` on a
missing key). -/
def colAt (cols : SourceColumnMapping) (k : SourceColumn) : Except RunError String :=
  match alookup cols k with
  | some s => .ok s
  | none => .error (.thrown "map::at: key not found")

/-- `Areas::populateFromAuthorityByYearCSV` (areas.cpp lines 391–450) over
the lines of the stream. -/
def populateFromAuthorityByYearCSV (lines : List String) (cols : SourceColumnMapping)
    (f : Filters) (d : Areas) : Except RunError Areas :=
  if cols.length ≠ 3 then .error (.thrown "Not enough columns in cols mapping!")
  else
    match colAt cols .SINGLE_MEASURE_CODE with
    | .error e => .error e
    | .ok measureCode =>
      match colAt cols .SINGLE_MEASURE_NAME with
      | .error e => .error e
      | .ok measureLabel =>
        if isIncludedInFilter f.measuresFilter measureCode false then
          let line := lines.head?.getD ""
          if line = "" then .error (.thrown "CSV file is empty!")
          else
            match removeEndline line with
            | .error e => .error e
            | .ok line2 =>
              match getYears (tokenize line2) with
              | .error e => .error (.thrown e)
              | .ok years =>
                processRows measureCode measureLabel f years (lines.drop 1) d
        else .ok d

/-- The area filter test of `Areas::populateFromAuthorityCodeCSV` (areas.cpp
line 174): null filter, empty filter, or exact (no case conversion)
membership. -/
def authorityCsvAllows (areasFilter : Option (List String)) (code : String) : Bool :=
  match areasFilter with
  | none => true
  | some fl => fl.isEmpty || fl.contains code

/-- The row loop of `Areas::populateFromAuthorityCodeCSV` (areas.cpp lines
156–181). -/
def authorityCsvRows (areasFilter : Option (List String)) :
    List String → Areas → Except RunError Areas
  | [], d => .ok d
  | line :: rest, d =>
    let cells := tokenize line
    let authorityCode := cells.head?.getD ""
    let englishName := (cells.drop 1).head?.getD ""
    let welshName := (cells.drop 2).head?.getD ""
    if authorityCode = "" ∨ englishName = "" ∨ welshName = "" then
      .error (.thrown "Line does not have three comma separated values!")
    else if authorityCsvAllows areasFilter authorityCode then
      match (Area.make authorityCode).setName "eng" englishName with
      | .error e => .error (.thrown e)
      | .ok a1 =>
        match a1.setName "cym" welshName with
        | .error e => .error (.thrown e)
        | .ok a2 => authorityCsvRows areasFilter rest (d.setArea authorityCode a2)
    else authorityCsvRows areasFilter rest d

/-- `Areas::populateFromAuthorityCodeCSV` (areas.cpp lines 143–182): column
count check, discard the header line, process each row. -/
def populateFromAuthorityCodeCSV (lines : List String) (cols : SourceColumnMapping)
    (areasFilter : Option (List String)) (d : Areas) : Except RunError Areas :=
  if cols.length ≠ 3 then .error (.thrown "Not enough columns in cols mapping!")
  else authorityCsvRows areasFilter (lines.drop 1) d

/-- `BethYw::SourceDataType`. -/
inductive SourceDataType
  | AuthorityCodeCSV
  | WelshStatsJSON
  | AuthorityByYearCSV
deriving DecidableEq

/-- The input stream handed to `Areas::populate`: its `good()` status and the
lines `std::getline` would produce. -/
structure InStream where
  good : Bool
  lines : List String

/-- `Areas::populate` (3-argument overload, areas.cpp lines 513–531): the
filterless dispatch.  The `AuthorityByYearCSV` branch forwards NULL POINTERS
(`none`) for all three filters, unlike the `WelshStatsJSON` branch, which
builds an empty set and a (0,0) tuple locally.  The row-oriented JSON
ingestion (which starts by running the vendored third-party JSON parser on
the stream) is abstracted as the function argument `welshStatsIngest`; no
claim below depends on its body. -/
def populate3 (welshStatsIngest : List String → Filters → Areas → Except RunError Areas)
    (is : InStream) (t : SourceDataType) (cols : SourceColumnMapping) (d : Areas) :
    Except RunError Areas :=
  if !is.good then .error (.thrown "Invalid input stream!")
  else
    match t with
    | .AuthorityCodeCSV => populateFromAuthorityCodeCSV is.lines cols none d
    | .WelshStatsJSON => welshStatsIngest is.lines ⟨some [], some [], some (0, 0)⟩ d
    | .AuthorityByYearCSV => populateFromAuthorityByYearCSV is.lines cols ⟨none, none, none⟩ d

theorem takeWhile_all {α : Type _} {p : α → Bool} (l : List α) (h : l.all p = true) :
    l.takeWhile p = l := by
  induction l with
  | nil => rfl
  | cons a t ih =>
    simp only [List.all_cons, Bool.and_eq_true] at h
    rw [List.takeWhile_cons, h.1, ih h.2, if_pos rfl]

theorem dropWhile_all {α : Type _} {p : α → Bool} (l : List α) (h : l.all p = true) :
    l.dropWhile p = [] := by
  induction l with
  | nil => rfl
  | cons a t ih =>
    simp only [List.all_cons, Bool.and_eq_true] at h
    rw [List.dropWhile_cons, h.1, if_pos rfl]
    exact ih h.2

theorem digit_not_space (c : Char) (h : isDigitChar c = true) : isSpaceChar c = false := by
  rw [isDigitChar] at h
  simp only [Bool.and_eq_true, decide_eq_true_eq] at h
  cases hb : isSpaceChar c with
  | false => rfl
  | true =>
    exfalso
    rw [isSpaceChar] at hb
    simp only [Bool.or_eq_true, Bool.and_eq_true, decide_eq_true_eq] at hb
    omega

theorem strtol10_all_digits (l : List Char) (hne : l ≠ [])
    (hdig : l.all isDigitChar = true) :
    strtol10 l = (max (min (digitsVal l : Int) (2 ^ 63 - 1)) (-(2 ^ 63)), []) := by
  cases l with
  | nil => exact absurd rfl hne
  | cons c t =>
    have hc : isDigitChar c = true := by
      simp only [List.all_cons, Bool.and_eq_true] at hdig
      exact hdig.1
    have hws : (c :: t).dropWhile isSpaceChar = c :: t := by
      rw [List.dropWhile_cons, digit_not_space c hc]
      rfl
    have hns : ¬((some c = some '-') ∨ (some c = some '+')) := by
      rintro (h | h) <;>
        · injection h with h
          subst h
          exact absurd hc (by decide)
    have htw : (c :: t).takeWhile isDigitChar = c :: t := takeWhile_all _ hdig
    have hdw : (c :: t).dropWhile isDigitChar = [] := dropWhile_all _ hdig
    rw [strtol10]
    simp only [hws, List.head?_cons]
    rw [if_neg hns, htw, if_neg (List.cons_ne_nil c t),
      if_neg (fun h => hns (Or.inl h)), hdw]
    simp

/-- C6 counterexample: `parseYear` is NOT restricted to purely numeric
strings.  The empty string parses successfully to 0 (strtol performs no
conversion and the end pointer, reset to the start, is already at the NUL),
a leading space and a sign are consumed, and a negative year wraps around
the `unsigned int` conversion. -/
theorem claim_C6_counterexample :
    parseYear "" = .ok 0
    ∧ parseYear " 42" = .ok 42
    ∧ parseYear "-42" = .ok 4294967254 := by
  refine ⟨rfl, rfl, rfl⟩

/-- C6 (amended): `parseYear` succeeds exactly when `strtol` consumes the
whole string: every purely numeric string succeeds (with the value clamped
to the `long` range and reduced mod 2^32 by the `unsigned int` return), but
so do the empty string (0), strings with leading whitespace, and signed
numbers; a string with trailing non-digits fails with the ParseError
message. -/
theorem claim_C6 (s : String) (hne : s.data ≠ [])
    (hdig : s.data.all isDigitChar = true) :
    parseYear s
      = .ok ((max (min (digitsVal s.data : Int) (2 ^ 63 - 1)) (-(2 ^ 63)) % 2 ^ 32).toNat)
    ∧ parseYear "" = .ok 0
    ∧ parseYear " 42" = .ok 42
    ∧ parseYear "+42" = .ok 42
    ∧ parseYear "-42" = .ok 4294967254
    ∧ parseYear "12a" = .error "Year value can not be parsed as unsigned int: 12a" := by
  refine ⟨?_, rfl, rfl, rfl, rfl, rfl⟩
  rw [parseYear]
  simp only [strtol10_all_digits s.data hne hdig]
  rw [if_pos trivial]

/-- Witness for the amended C6 at "1991". -/
theorem claim_C6_witness :
    parseYear "1991"
      = .ok ((max (min (digitsVal "1991".data : Int) (2 ^ 63 - 1)) (-(2 ^ 63)) % 2 ^ 32).toNat)
    ∧ parseYear "" = .ok 0
    ∧ parseYear " 42" = .ok 42
    ∧ parseYear "+42" = .ok 42
    ∧ parseYear "-42" = .ok 4294967254
    ∧ parseYear "12a" = .error "Year value can not be parsed as unsigned int: 12a" :=
  claim_C6 "1991" (by decide) (by decide)

/-- A concrete 3-entry column mapping for the single-measure CSV claims. -/
def c5cols : SourceColumnMapping :=
  [(.AUTH_CODE, "AuthorityCode"), (.SINGLE_MEASURE_CODE, "pop"),
   (.SINGLE_MEASURE_NAME, "Population")]

/-- Non-restricting filters: empty sets and the (0,0) year range. -/
def noFilters : Filters := ⟨some [], some [], some (0, 0)⟩

/-- C5 counterexample: on header "code,1991,1992" and row "W1,10.0," the
final `getline` fails (the line ends in a comma, so there is no third cell),
`value` is left empty, and ingestion THROWS the not-enough-values error — it
does not complete with year 1992 absent as the claim states. -/
theorem claim_C5_counterexample :
    populateFromAuthorityByYearCSV ["code,1991,1992", "W1,10.0,"] c5cols noFilters ⟨[]⟩
      = .error (.thrown "Not enough values for all years in authority by year CSV file!") :=
  rfl

/-- C5 (amended): the row "W1,10.0," raises MalformedInput — the trailing
empty cell reads back as an empty string, and an empty cell where a value is
expected is an error.  Only a PRESENT but non-numeric cell is silently
skipped: with row "W1,10.0,x" ingestion completes and produces exactly
{1991 ↦ 10.0} for W1, year 1992 absent. -/
theorem claim_C5 :
    populateFromAuthorityByYearCSV ["code,1991,1992", "W1,10.0,"] c5cols noFilters ⟨[]⟩
      = .error (.thrown "Not enough values for all years in authority by year CSV file!")
    ∧ populateFromAuthorityByYearCSV ["code,1991,1992", "W1,10.0,x"] c5cols noFilters ⟨[]⟩
      = .ok ⟨[("W1", ⟨"W1", [], [("pop", ⟨"pop", "Population", [(1991, 10)]⟩)]⟩)]⟩ :=
  ⟨rfl, rfl⟩

theorem removeEndline_ok (s : String) (h : s ≠ "") : ∃ r, removeEndline s = .ok r := by
  obtain ⟨data⟩ := s
  cases data with
  | nil => exact absurd rfl h
  | cons a t =>
    cases hgl : (a :: t).getLast? with
    | none => simp at hgl
    | some c =>
      rw [removeEndline]
      simp only [hgl]
      by_cases hc : c = '\r' ∨ c = '\n'
      · rw [if_pos hc]
        exact ⟨_, rfl⟩
      · rw [if_neg hc]
        exact ⟨_, rfl⟩

/-- C9: the filterless dispatch `populate(is, AuthorityByYearCSV, cols)`
forwards null pointers as all three filters; for any stream whose header
parses to at least one year and that has at least one (non-empty) data row,
the first in-range test calls `isInYearRange` with the null years filter,
which dereferences it without a null check — undefined behaviour, not any
thrown error.  (The theorem holds for EVERY model of the out-of-scope JSON
ingestion branch, which is never reached.) -/
theorem claim_C9
    (welshIngest : List String → Filters → Areas → Except RunError Areas)
    (cols : SourceColumnMapping) (header row : String) (rest : List String) (d : Areas)
    (mc ml h2 : String) (y : Nat) (ys : List Nat)
    (hcols : cols.length = 3)
    (hmc : alookup cols .SINGLE_MEASURE_CODE = some mc)
    (hml : alookup cols .SINGLE_MEASURE_NAME = some ml)
    (hheader : header ≠ "")
    (hrem : removeEndline header = .ok h2)
    (hyears : getYears (tokenize h2) = .ok (y :: ys))
    (hrow : row ≠ "") :
    populate3 welshIngest ⟨true, header :: row :: rest⟩ .AuthorityByYearCSV cols d
      = .error .undefinedBehaviour := by
  show populateFromAuthorityByYearCSV (header :: row :: rest) cols ⟨none, none, none⟩ d
      = .error .undefinedBehaviour
  rw [populateFromAuthorityByYearCSV, hcols,
    if_neg (show ¬ ((3 : Nat) ≠ 3) from fun hx => hx rfl)]
  simp only [colAt, hmc, hml]
  rw [if_pos (show isIncludedInFilter none mc false = true from rfl)]
  simp only [List.head?_cons, Option.getD_some]
  rw [if_neg hheader, hrem]
  simp only [hyears]
  show processRows mc ml ⟨none, none, none⟩ (y :: ys) (row :: rest) d
      = .error .undefinedBehaviour
  obtain ⟨r2, hr2⟩ := removeEndline_ok row hrow
  rw [processRows, hr2]
  simp only
  rw [if_pos (show isIncludedInFilter none ((tokenize r2).head?.getD "") true = true from rfl)]
  show (match readValuesForYears none (y :: ys) (Measure.make mc ml)
      ((tokenize r2).drop 1) with
    | .error e => Except.error e
    | .ok newMeasure => processRows mc ml ⟨none, none, none⟩ (y :: ys) rest
        ((d.setArea ((tokenize r2).head?.getD "")
          ((Area.make ((tokenize r2).head?.getD "")).setMeasure mc newMeasure))))
      = .error .undefinedBehaviour
  rw [readValuesForYears]
  rfl

/-- Witness for C9 at a concrete stream: header "code,1991", one row "W1,5",
a trivial stand-in for the JSON branch (never reached). -/
theorem claim_C9_witness :
    populate3 (fun _ _ d => .ok d) ⟨true, ["code,1991", "W1,5"]⟩ .AuthorityByYearCSV
        c5cols ⟨[]⟩
      = .error .undefinedBehaviour :=
  claim_C9 (fun _ _ d => .ok d) c5cols "code,1991" "W1,5" [] ⟨[]⟩ "pop" "Population"
    "code,1991" 1991 [] rfl rfl rfl (by decide) rfl rfl (by decide)
